import Mathlib

/-!
Verification development for the motorcycle-class-scraper pipeline
(`src/scraper.js`).  The JavaScript source is shallowly embedded: pure
helpers become Lean functions, the stateful orchestration and sync code
becomes explicit state passing producing an event trace, and the
JavaScript runtime behaviors the code relies on (string interpolation of
`undefined`, `||` defaulting, `Buffer`/base64, the subset of `new Date`
parsing reachable from the cleaned date strings) are modelled explicitly.
-/

namespace Scraper

/-- A raw record as produced by `page.evaluate` in the extractors: every
field is optional (`none` models the JavaScript value `undefined`). -/
structure RawRecord where
  title : Option String
  date : Option String
  time : Option String
  location : Option String
  price : Option String
  link : Option String
  provider : Option String
  type : Option String
deriving DecidableEq

/-- JavaScript template-literal interpolation: `undefined` interpolates as
the literal string `"undefined"`; a present string interpolates as itself. -/
def jsToString : Option String → String
  | none => "undefined"
  | some s => s

/-- JavaScript `x || d` for string `x`: `undefined` and the empty string are
falsy and yield the default `d`. -/
def jsOr : Option String → String → String
  | none, d => d
  | some "", d => d
  | some s, _ => s

/-- UTF-8 encoding of a single character (what `Buffer.from(str)` does per
code point), as a list of byte values. -/
def utf8EncodeChar (c : Char) : List Nat :=
  let n := c.toNat
  if n < 128 then [n]
  else if n < 2048 then [192 + n / 64, 128 + n % 64]
  else if n < 65536 then [224 + n / 4096, 128 + (n / 64) % 64, 128 + n % 64]
  else [240 + n / 262144, 128 + (n / 4096) % 64, 128 + (n / 64) % 64, 128 + n % 64]

/-- The UTF-8 bytes of a string, modelling `Buffer.from(str)`. -/
def utf8Bytes (s : String) : List Nat :=
  s.data.flatMap utf8EncodeChar

/-- The standard base64 alphabet. -/
def b64Alphabet : List Char :=
  "ABCDEFGHIJKLMNOPQRSTUVWXYZabcdefghijklmnopqrstuvwxyz0123456789+/".data

/-- The base64 digit for a 6-bit value. -/
def b64Char (n : Nat) : Char :=
  b64Alphabet.getD n '?'

/-- Index of a character in the base64 alphabet (left inverse of `b64Char`
on values below 64). -/
def b64Index (c : Char) : Nat :=
  b64Alphabet.indexOf c

/-- Base64 encoding of a byte list with standard padding, modelling
`Buffer.toString('base64')`. -/
def b64Encode : List Nat → List Char
  | [] => []
  | [a] => [b64Char (a / 4), b64Char (a % 4 * 16), '=', '=']
  | [a, b] => [b64Char (a / 4), b64Char (a % 4 * 16 + b / 16), b64Char (b % 16 * 4), '=']
  | a :: b :: c :: rest =>
      b64Char (a / 4) :: b64Char (a % 4 * 16 + b / 16) ::
        b64Char (b % 16 * 4 + c / 64) :: b64Char (c % 64) :: b64Encode rest

/-- Positional base64 decoder for unpadded (length divisible by 3) input;
used only to establish injectivity of `b64Encode` on 9-byte prefixes. -/
def b64DecodeBlocks : List Char → List Nat
  | c1 :: c2 :: c3 :: c4 :: rest =>
      (b64Index c1 * 4 + b64Index c2 / 16) ::
        (b64Index c2 % 16 * 16 + b64Index c3 / 4) ::
          (b64Index c3 % 4 * 64 + b64Index c4) :: b64DecodeBlocks rest
  | _ => []

/-- The string whose base64 encoding is truncated to form a record id:
`` `${cls.provider}-${cls.title}-${cls.date}` `` (absent fields
interpolate as `"undefined"`). -/
def idString (cls : RawRecord) : String :=
  jsToString cls.provider ++ "-" ++ jsToString cls.title ++ "-" ++ jsToString cls.date

/-- `generateId` from `src/scraper.js`:
`Buffer.from(str).toString('base64').slice(0, 12)`. -/
def generateId (cls : RawRecord) : String :=
  String.mk ((b64Encode (utf8Bytes (idString cls))).take 12)

/-- The whitespace class of the JavaScript regex `\s`, restricted to the
characters that can occur in scraped date text. -/
def isJsSpace (c : Char) : Bool :=
  c == ' ' || c == '\t' || c == '\n' || c == '\r' || c.toNat == 11 || c.toNat == 12 ||
    c.toNat == 160

/-- The character class kept by `dateStr.replace(/[^\d\/\-\s]/g, '')`:
digits, `/`, `-`, and whitespace survive, everything else is deleted. -/
def keepDateChar (c : Char) : Bool :=
  c.isDigit || c == '/' || c == '-' || isJsSpace c

/-- The cleaning step of `parseDate`. -/
def cleanDate (s : String) : String :=
  String.mk (s.data.filter keepDateChar)

/-- Numeric value of a digit run (most significant digit first). -/
def digitsToNat (l : List Char) : Nat :=
  l.foldl (fun a c => a * 10 + (c.toNat - 48)) 0

def isLeapYear (y : Nat) : Bool :=
  (y % 4 == 0 && y % 100 != 0) || y % 400 == 0

def daysInMonth (y m : Nat) : Nat :=
  if m = 2 then (if isLeapYear y then 29 else 28)
  else if m = 4 ∨ m = 6 ∨ m = 9 ∨ m = 11 then 30
  else 31

/-- A calendar-valid year/month/day triple, as validated by the engine's
date constructor. -/
def validYmd (y m d : Nat) : Bool :=
  1 ≤ m && m ≤ 12 && 1 ≤ d && d ≤ daysInMonth y m

/-- Strip leading and trailing JavaScript whitespace from a character list
(the date parser skips surrounding whitespace). -/
def trimChars (l : List Char) : List Char :=
  ((l.dropWhile isJsSpace).reverse.dropWhile isJsSpace).reverse

/-- ECMAScript ISO date-only recognition: `YYYY-MM-DD`, `YYYY-MM`, or
`YYYY`, with exact digit counts and calendar validation. -/
def isoMatch (l : List Char) : Option (Nat × Nat × Nat) :=
  let p1 := l.span Char.isDigit
  if p1.1.length = 4 then
    let y := digitsToNat p1.1
    match p1.2 with
    | [] => some (y, 1, 1)
    | '-' :: r2 =>
      let p2 := r2.span Char.isDigit
      if p2.1.length = 2 then
        let m := digitsToNat p2.1
        match p2.2 with
        | [] => if 1 ≤ m ∧ m ≤ 12 then some (y, m, 1) else none
        | '-' :: r4 =>
          let p3 := r4.span Char.isDigit
          if p3.1.length = 2 ∧ p3.2 = [] then
            let d := digitsToNat p3.1
            if validYmd y m d then some (y, m, d) else none
          else none
        | _ => none
      else none
    | _ => none
  else none

/-- Legacy slash-separated recognition (`M/D/YYYY`, or `YYYY/M/D` when the
first group has more than two digits), calendar-validated. -/
def slashMatch (l : List Char) : Option (Nat × Nat × Nat) :=
  let p1 := l.span Char.isDigit
  match p1.1, p1.2 with
  | [], _ => none
  | _, '/' :: r2 =>
    let p2 := r2.span Char.isDigit
    match p2.1, p2.2 with
    | [], _ => none
    | _, '/' :: r4 =>
      let p3 := r4.span Char.isDigit
      if p3.1 ≠ [] ∧ p3.2 = [] then
        let n1 := digitsToNat p1.1
        let n2 := digitsToNat p2.1
        let n3 := digitsToNat p3.1
        if p1.1.length ≥ 3 then
          if validYmd n1 n2 n3 then some (n1, n2, n3) else none
        else
          if validYmd n3 n1 n2 then some (n3, n1, n2) else none
      else none
    | _, _ => none
  | _, _ => none

/-- Model of the engine's `new Date(string)` on the strings reachable after
`cleanDate` (alphabet: digits, `/`, `-`, whitespace), assuming a UTC
environment.  Recognized forms: the ECMAScript ISO date-only forms and the
legacy slash forms above; every other cleaned string (in particular bare
number sequences such as `"15 2025"`, which the engine rejects because the
leading number cannot be a month) is an invalid date. -/
def jsDateParse (s : String) : Option (Nat × Nat × Nat) :=
  let l := trimChars s.data
  match isoMatch l with
  | some d => some d
  | none => slashMatch l

/-- Left-pad a month or day to two digits. -/
def pad2 (n : Nat) : String :=
  if n < 10 then "0" ++ toString n else toString n

/-- Left-pad a year to four digits. -/
def pad4 (n : Nat) : String :=
  if n < 10 then "000" ++ toString n
  else if n < 100 then "00" ++ toString n
  else if n < 1000 then "0" ++ toString n
  else toString n

/-- `date.toISOString().split('T')[0]`: the `YYYY-MM-DD` rendering. -/
def toIsoDate (y m d : Nat) : String :=
  pad4 y ++ "-" ++ pad2 m ++ "-" ++ pad2 d

/-- `parseDate` from `src/scraper.js`: falsy input (absent or empty) gives
null; otherwise clean, construct a date, and render `YYYY-MM-DD` on
success, null on failure. -/
def parseDate (dateStr : Option String) : Option String :=
  match dateStr with
  | none => none
  | some s =>
    if s = "" then none
    else
      match jsDateParse (cleanDate s) with
      | none => none
      | some (y, m, d) => some (toIsoDate y m d)

/-- First match of the regex `\$(\d+(?:\.\d{2})?)` in a character list,
returned as a rational dollar amount. -/
def priceMatch : List Char → Option ℚ
  | [] => none
  | '$' :: rest =>
    let p := rest.span Char.isDigit
    match p.1 with
    | [] => priceMatch rest
    | _ =>
      let dollars : ℚ := (digitsToNat p.1 : ℚ)
      match p.2 with
      | '.' :: a :: b :: _ =>
        if a.isDigit ∧ b.isDigit then
          some (dollars + ((a.toNat - 48) * 10 + (b.toNat - 48) : ℕ) / 100)
        else some dollars
      | _ => some dollars
  | _ :: rest => priceMatch rest

/-- `parsePrice` from `src/scraper.js`: falsy input gives null; otherwise
the first `$`-prefixed number (optional two-digit fraction), else null. -/
def parsePrice (priceStr : Option String) : Option ℚ :=
  match priceStr with
  | none => none
  | some s => if s = "" then none else priceMatch s.data

/-- A canonical record: every field is fully defaulted by construction
(`Option` encodes an explicit JavaScript `null`, never `undefined`). -/
structure CanonicalRecord where
  id : String
  title : String
  provider : String
  date : Option String
  time : String
  location : String
  price : Option ℚ
  type : String
  link : String
  lastUpdated : String
  region : String
deriving DecidableEq

/-- The per-record body of `normalizeData`; `now` is the value of
`new Date().toISOString()` at normalization time. -/
def normalizeRecord (now : String) (cls : RawRecord) : CanonicalRecord where
  id := generateId cls
  title := jsOr cls.title "Motorcycle Safety Course"
  provider := jsOr cls.provider "Unknown"
  date := parseDate cls.date
  time := jsOr cls.time ""
  location := jsOr cls.location "Southern California"
  price := parsePrice cls.price
  type := jsOr cls.type "Motorcycle Course"
  link := jsOr cls.link ""
  lastUpdated := now
  region := "Southern California"

/-- `normalizeData` from `src/scraper.js`: a map over the aggregate. -/
def normalizeData (now : String) (classes : List RawRecord) : List CanonicalRecord :=
  classes.map (normalizeRecord now)

/-- Observable events of the stateful pipeline: browser-resource and page
actions, network requests, the rate-limit wait, and local file writes.
Console logging is elided except for the catch-branch log of each
operation. -/
inductive Event where
  | log
  | newPage
  | navigate (url : String)
  | waitForSelector
  | evaluate
  | closePage
  | netGet
  | netPost (batch : List CanonicalRecord)
  | sleep (ms : Nat)
  | writeSnapshot (data : List CanonicalRecord)
  | writeSummary (data : List CanonicalRecord)
deriving DecidableEq

def isNewPageEv : Event → Bool
  | .newPage => true
  | _ => false

def isClosePageEv : Event → Bool
  | .closePage => true
  | _ => false

def isNetEv : Event → Bool
  | .netGet => true
  | .netPost _ => true
  | _ => false

def isSnapshotEv : Event → Bool
  | .writeSnapshot _ => true
  | _ => false

/-- A product element as read by the RideRite `page.evaluate` callback. -/
structure ProductItem where
  title : Option String
  price : Option String
  link : Option String
deriving DecidableEq

/-- A listing element as read by the MSI `page.evaluate` callback. -/
structure DomItem where
  title : Option String
  date : Option String
  location : Option String
  price : Option String
deriving DecidableEq

/-- Outcomes of the external browser capability for one extractor call:
whether navigation and the selector wait succeed, and what each
`page.evaluate` returns (`none` models the evaluation throwing). -/
structure PageEnv where
  navigateOk : Bool
  waitOk : Bool
  products : Option (List ProductItem)
  items : Option (List DomItem)

def rideRiteUrl : String := "https://shopriderite.net/product-category/basic/"

/-- The per-product mapping of the RideRite evaluate callback:
`if (!title) return null`, then `.filter(Boolean)` drops the nulls. -/
def rideRiteItem (p : ProductItem) : Option RawRecord :=
  match p.title with
  | none => none
  | some "" => none
  | some t => some ⟨some t, none, none, none, p.price, p.link, some "RideRite", some "Basic Course"⟩

/-- The per-item mapping of the MSI evaluate callback: provider is the
function parameter and link is the page url. -/
def msiItem (url provider : String) (it : DomItem) : RawRecord :=
  ⟨it.title, it.date, none, it.location, it.price, some url, some provider, none⟩

/-- The `try`-block of `scrapeShopRideRite`: events performed and either
the extracted records or an escaped error. -/
def rideRiteBody (env : PageEnv) : List Event × Except Unit (List RawRecord) :=
  if env.navigateOk then
    match env.products with
    | some ps => ([.navigate rideRiteUrl, .evaluate], .ok (ps.filterMap rideRiteItem))
    | none => ([.navigate rideRiteUrl, .evaluate], .error ())
  else ([.navigate rideRiteUrl], .error ())

/-- The `try`-block of `scrapeMSIRegistration`. -/
def msiBody (env : PageEnv) (url : String) : List Event × Except Unit (List DomItem) :=
  if env.navigateOk then
    if env.waitOk then
      match env.items with
      | some its => ([.navigate url, .waitForSelector, .evaluate], .ok its)
      | none => ([.navigate url, .waitForSelector, .evaluate], .error ())
    else ([.navigate url, .waitForSelector], .error ())
  else ([.navigate url], .error ())

def isErr {α : Type} : Except Unit α → Bool
  | .error _ => true
  | .ok _ => false

/-- `scrapeShopRideRite`: open a page, run the body under `try`/`catch`
(logging on error) with `finally { page.close() }`, and push the extracted
records onto the aggregate `this.classes` (passed and returned
explicitly). -/
def scrapeShopRideRite (env : PageEnv) (classes : List RawRecord) :
    List Event × List RawRecord :=
  match rideRiteBody env with
  | (tr, .ok recs) => (([Event.newPage] ++ tr) ++ [Event.closePage], classes ++ recs)
  | (tr, .error _) => (([Event.newPage] ++ tr ++ [Event.log]) ++ [Event.closePage], classes)

/-- `scrapeMSIRegistration`: same shape with a selector wait, mapping each
DOM item through `msiItem`. -/
def scrapeMSIRegistration (env : PageEnv) (url provider : String)
    (classes : List RawRecord) : List Event × List RawRecord :=
  match msiBody env url with
  | (tr, .ok its) =>
      (([Event.newPage] ++ tr) ++ [Event.closePage], classes ++ its.map (msiItem url provider))
  | (tr, .error _) => (([Event.newPage] ++ tr ++ [Event.log]) ++ [Event.closePage], classes)

/-- The records an invocation of `scrapeShopRideRite` appends. -/
def rideRiteRecords (env : PageEnv) : List RawRecord :=
  match rideRiteBody env with
  | (_, .ok r) => r
  | (_, .error _) => []

/-- The records an invocation of `scrapeMSIRegistration` appends. -/
def msiRecords (env : PageEnv) (url provider : String) : List RawRecord :=
  match msiBody env url with
  | (_, .ok its) => its.map (msiItem url provider)
  | (_, .error _) => []

/-- An entry of the `sources` registry in `scrapeAll`: a name and the
source function, which receives the current aggregate and returns the
aggregate it leaves behind together with a flag recording whether it
threw. -/
structure RegisteredSource where
  name : String
  fn : List RawRecord → List RawRecord × Bool

/-- The orchestration loop of `scrapeAll`: each source runs in registration
order inside `try`/`catch`, so the loop keeps whatever aggregate the source
left and continues regardless of the flag; the loop itself only reads the
aggregate (for delta logging) and never appends to it. -/
def scrapeAllLoop (sources : List RegisteredSource) (classes : List RawRecord) :
    List RawRecord :=
  sources.foldl (fun acc s => (s.fn acc).1) classes

/-- Abstract behavior of one registered source, matching the repository's
extractors: they append their records on success and leave the aggregate
unchanged when they raise (every extractor pushes only as its final
action). -/
inductive SourceOutcome where
  | yields (recs : List RawRecord)
  | raises
deriving DecidableEq

def outcomeFn : SourceOutcome → List RawRecord → List RawRecord × Bool
  | .yields recs => fun cs => (cs ++ recs, false)
  | .raises => fun cs => (cs, true)

def mkSource (p : String × SourceOutcome) : RegisteredSource :=
  ⟨p.1, outcomeFn p.2⟩

def yieldedRecords : SourceOutcome → Option (List RawRecord)
  | .yields r => some r
  | .raises => none

/-- The registry literally defined in `scrapeAll` (it registers only the
RideRite source). -/
def realRegistry (env : PageEnv) : List RegisteredSource :=
  [⟨"RideRite", fun cs => ((scrapeShopRideRite env cs).2, false)⟩]

/-- `scrapeAll`: run the registry loop on an empty aggregate, then
normalize. -/
def scrapeAll (env : PageEnv) (now : String) : List CanonicalRecord :=
  normalizeData now (scrapeAllLoop (realRegistry env) [])

/-- The environment-supplied Airtable configuration. -/
structure AirtableConfig where
  baseId : Option String
  tableId : Option String
  apiKey : Option String
deriving DecidableEq

/-- `saveToJSON`: log, write the dated snapshot, log, write the summary
artifact, log. -/
def saveToJSON (data : List CanonicalRecord) : List Event :=
  [.log, .writeSnapshot data, .log, .writeSummary data, .log]

/-- The batching loop `for (let i = 0; i < data.length; i += 10)
batches.push(data.slice(i, i + 10))`: the loop body runs once per start
index `0, 10, 20, …` below `data.length`, and `slice(i, i + 10)` is
drop-`i`-then-take-10. -/
def chunks10 {α : Type} (l : List α) : List (List α) :=
  (List.range ((l.length + 9) / 10)).map fun k => (l.drop (10 * k)).take 10

abbrev SaveFn : Type := Bool → AirtableConfig → List CanonicalRecord → List Event

/-- The first (line 260) definition of `saveToAirtable`: fall back to JSON
without a key, otherwise post the batches with no probe, no inter-batch
delay and no JSON backup. -/
def saveToAirtableV1 : SaveFn := fun _ cfg data =>
  match cfg.apiKey with
  | none => Event.log :: saveToJSON data
  | some _ => (chunks10 data).flatMap fun b => [Event.netPost b]

/-- The second (line 322) definition of `saveToAirtable`: fall back to JSON
without a key; otherwise probe the store with a GET, falling back to JSON
on probe failure; otherwise post each batch followed by the 250 ms
rate-limit sleep, and unconditionally save to JSON afterwards as backup.
`probeOk` is the store's response to the connectivity probe. -/
def saveToAirtableV2 : SaveFn := fun probeOk cfg data =>
  match cfg.apiKey with
  | none => Event.log :: saveToJSON data
  | some _ =>
    [Event.log, Event.log, Event.log, Event.log, Event.netGet] ++
      (if probeOk then
        [Event.log, Event.log] ++
          ((chunks10 data).flatMap fun b => [Event.log, Event.netPost b, Event.log, Event.sleep 250]) ++
          saveToJSON data
      else [Event.log, Event.log] ++ saveToJSON data)

/-- The class body in source order: `saveToAirtable` is defined twice. -/
def methodTable : List (String × SaveFn) :=
  [("saveToAirtable", saveToAirtableV1), ("saveToAirtable", saveToAirtableV2)]

/-- JavaScript class semantics: of several same-named method definitions,
the last one in the class body is the one installed. -/
def lookupMethod (n : String) : Option SaveFn :=
  ((methodTable.filter fun p => p.1 == n).getLast?).map fun p => p.2

/-- The observably active `saveToAirtable`. -/
def saveToAirtable : SaveFn :=
  (lookupMethod "saveToAirtable").getD saveToAirtableV1

/-! Concrete sample inputs used by witnesses and counterexamples. -/

def emptyRaw : RawRecord := ⟨none, none, none, none, none, none, none, none⟩

def rawBasic : RawRecord :=
  ⟨some "Basic Course", some "1/1/2025", none, none, none, none, some "RideRite", none⟩

def rawAdvanced : RawRecord :=
  ⟨some "Advanced Course", some "2/2/2025", none, none, none, none, some "RideRite", none⟩

def rawNoProvider : RawRecord := ⟨some "T", some "D", none, none, none, none, none, none⟩

def rawUnknownProvider : RawRecord :=
  ⟨some "T", some "D", none, none, none, none, some "Unknown", none⟩

def rawIsoDate : RawRecord := ⟨some "B", some "2025-03-15", none, none, none, none, some "A", none⟩

def rawSlashDate : RawRecord := ⟨some "B", some "3/15/2025", none, none, none, none, some "A", none⟩

def cfgNone : AirtableConfig := ⟨none, none, none⟩

def cfgKey : AirtableConfig := ⟨some "appBase", some "tblTable", some "keySecret"⟩

def sampleCanonical : CanonicalRecord :=
  ⟨"UmlkZVJpdGUt", "Basic Course", "RideRite", none, "", "Southern California", none,
    "Basic Course", "", "2025-01-01T00:00:00.000Z", "Southern California"⟩

def data23 : List CanonicalRecord := List.replicate 23 sampleCanonical

def envFailNav : PageEnv := ⟨false, true, none, none⟩

def envOneProduct : PageEnv :=
  ⟨true, true, some [⟨some "Basic RiderCourse", some "$250.00", some "https://x"⟩], none⟩

/-- A three-source registry whose second source raises during
extraction. -/
def regsThree : List (String × SourceOutcome) :=
  [("A", .yields [rawBasic]), ("B", .raises), ("C", .yields [rawAdvanced])]

/-! Helper lemmas. -/

theorem char_toNat_lt (c : Char) : c.toNat < 1114112 := by
  rcases c.valid with h | ⟨h1, h2⟩
  · exact Nat.lt_trans h (by norm_num)
  · exact h2

theorem utf8EncodeChar_lt (c : Char) : ∀ x ∈ utf8EncodeChar c, x < 256 := by
  intro x hx
  have hc := char_toNat_lt c
  simp only [utf8EncodeChar] at hx
  split at hx
  · simp at hx; omega
  · split at hx
    · simp at hx; rcases hx with rfl | rfl <;> omega
    · split at hx
      · simp at hx; rcases hx with rfl | rfl | rfl <;> omega
      · simp at hx; rcases hx with rfl | rfl | rfl | rfl <;> omega

theorem utf8Bytes_lt (s : String) : ∀ x ∈ utf8Bytes s, x < 256 := by
  intro x hx
  simp only [utf8Bytes, List.mem_flatMap] at hx
  obtain ⟨c, _, hm⟩ := hx
  exact utf8EncodeChar_lt c x hm

theorem chunks10_length {α : Type} (l : List α) :
    (chunks10 l).length = (l.length + 9) / 10 := by
  simp [chunks10]

theorem chunks10_getElem? {α : Type} (l : List α) (i : Nat) (h : i < (chunks10 l).length) :
    (chunks10 l)[i]? = some ((l.drop (10 * i)).take 10) := by
  rw [chunks10_length] at h
  simp [chunks10, List.getElem?_range h]

theorem chunks10_mem_le {α : Type} (l : List α) (b : List α) (hb : b ∈ chunks10 l) :
    b.length ≤ 10 := by
  simp only [chunks10, List.mem_map] at hb
  obtain ⟨k, _, rfl⟩ := hb
  simp [List.length_take]

theorem chunks10_cons_eq {α : Type} (x : α) (xs : List α) :
    chunks10 (x :: xs) = (x :: xs).take 10 :: chunks10 ((x :: xs).drop 10) := by
  simp only [chunks10]
  have hlen : ((x :: xs).length + 9) / 10 = (((x :: xs).drop 10).length + 9) / 10 + 1 := by
    simp only [List.length_cons, List.length_drop]
    omega
  rw [hlen, List.range_succ_eq_map]
  simp only [List.map_cons, List.map_map, Nat.mul_zero, List.drop_zero]
  congr 1
  apply List.map_congr_left
  intro k _
  simp only [Function.comp_apply, List.drop_drop, Nat.succ_eq_add_one]
  congr 2
  omega

theorem chunks10_flatten_aux {α : Type} :
    ∀ (n : Nat) (l : List α), l.length ≤ n → (chunks10 l).flatten = l
  | _, [], _ => by simp [chunks10]
  | 0, x :: xs, h => by simp at h
  | n + 1, x :: xs, h => by
    rw [chunks10_cons_eq, List.flatten_cons,
      chunks10_flatten_aux n ((x :: xs).drop 10)
        (by simp only [List.length_cons, List.length_drop] at h ⊢; omega)]
    exact List.take_append_drop 10 (x :: xs)

theorem chunks10_flatten {α : Type} (l : List α) : (chunks10 l).flatten = l :=
  chunks10_flatten_aux l.length l (Nat.le_refl _)

theorem b64Encode_length (l : List Nat) :
    (b64Encode l).length = 4 * ((l.length + 2) / 3) := by
  induction l using b64Encode.induct with
  | case1 => simp [b64Encode]
  | case2 a => simp [b64Encode]
  | case3 a b => simp [b64Encode]
  | case4 a b c rest ih => simp only [b64Encode, List.length_cons, ih]; omega

theorem exists_nine {α : Type} (l : List α) (h : 9 ≤ l.length) :
    ∃ a b c d e f g h9 i t, l = a :: b :: c :: d :: e :: f :: g :: h9 :: i :: t := by
  rcases l with _ | ⟨a, l⟩; · simp at h
  rcases l with _ | ⟨b, l⟩; · simp at h
  rcases l with _ | ⟨c, l⟩; · simp at h
  rcases l with _ | ⟨d, l⟩; · simp at h
  rcases l with _ | ⟨e, l⟩; · simp at h
  rcases l with _ | ⟨f, l⟩; · simp at h
  rcases l with _ | ⟨g, l⟩; · simp at h
  rcases l with _ | ⟨h9, l⟩; · simp at h
  rcases l with _ | ⟨i, l⟩; · simp at h
  exact ⟨a, b, c, d, e, f, g, h9, i, l, rfl⟩

theorem b64Encode_take12 (l : List Nat) (h : 9 ≤ l.length) :
    (b64Encode l).take 12 = b64Encode (l.take 9) := by
  obtain ⟨a, b, c, d, e, f, g, h9, i, t, rfl⟩ := exists_nine l h
  simp [b64Encode]

theorem b64Index_b64Char : ∀ s < 64, b64Index (b64Char s) = s := by decide

theorem b64DecodeBlocks_encode (l : List Nat) (w : ∀ x ∈ l, x < 256)
    (h : l.length % 3 = 0) : b64DecodeBlocks (b64Encode l) = l := by
  induction l using b64Encode.induct with
  | case1 => simp [b64Encode, b64DecodeBlocks]
  | case2 a => simp at h
  | case3 a b => simp at h
  | case4 a b c rest ih =>
    have ha : a < 256 := w a (by simp)
    have hb : b < 256 := w b (by simp)
    have hc : c < 256 := w c (by simp)
    simp only [b64Encode, b64DecodeBlocks]
    rw [b64Index_b64Char _ (by omega), b64Index_b64Char _ (by omega),
      b64Index_b64Char _ (by omega), b64Index_b64Char _ (by omega)]
    refine List.cons_eq_cons.mpr ⟨by omega, List.cons_eq_cons.mpr ⟨by omega,
      List.cons_eq_cons.mpr ⟨by omega, ?_⟩⟩⟩
    refine ih (fun x hx => w x (by simp [hx])) (by simp at h; omega)

theorem b64Encode_inj9 (l1 l2 : List Nat) (w1 : ∀ x ∈ l1, x < 256)
    (w2 : ∀ x ∈ l2, x < 256) (h1 : l1.length = 9) (h2 : l2.length = 9)
    (he : b64Encode l1 = b64Encode l2) : l1 = l2 := by
  have d1 := b64DecodeBlocks_encode l1 w1 (by omega)
  have d2 := b64DecodeBlocks_encode l2 w2 (by omega)
  rw [← d1, ← d2, he]

/-! Claim theorems. -/

/-- C1 (amended): `generateId` is deterministic — equal `(provider, title,
date)` triples always produce the identical id — and for combined strings
of at least 9 UTF-8 bytes the id has exactly 12 characters and two ids are
equal exactly when the first 9 bytes of the combined strings agree; hence
ids are pairwise distinct only for triples whose combined strings differ
within their first 9 bytes, and triples sharing such a prefix (for example
any two records of a provider whose name has at least 8 characters)
collide. -/
theorem c1_generateId_deterministic_ninebyte :
    (∀ c1 c2 : RawRecord, c1.provider = c2.provider → c1.title = c2.title →
      c1.date = c2.date → generateId c1 = generateId c2) ∧
    (∀ cls : RawRecord, 9 ≤ (utf8Bytes (idString cls)).length →
      (generateId cls).length = 12) ∧
    (∀ c1 c2 : RawRecord, 9 ≤ (utf8Bytes (idString c1)).length →
      9 ≤ (utf8Bytes (idString c2)).length →
      (generateId c1 = generateId c2 ↔
        (utf8Bytes (idString c1)).take 9 = (utf8Bytes (idString c2)).take 9)) := by
  refine ⟨?_, ?_, ?_⟩
  · intro c1 c2 h1 h2 h3
    simp [generateId, idString, h1, h2, h3]
  · intro cls h
    have hl := b64Encode_length (utf8Bytes (idString cls))
    show (List.take 12 (b64Encode (utf8Bytes (idString cls)))).length = 12
    rw [List.length_take]
    omega
  · intro c1 c2 h1 h2
    constructor
    · intro he
      have hdata : (b64Encode (utf8Bytes (idString c1))).take 12 =
          (b64Encode (utf8Bytes (idString c2))).take 12 := congrArg String.data he
      rw [b64Encode_take12 _ h1, b64Encode_take12 _ h2] at hdata
      refine b64Encode_inj9 _ _ ?_ ?_ ?_ ?_ hdata
      · intro x hx; exact utf8Bytes_lt _ x (List.mem_of_mem_take hx)
      · intro x hx; exact utf8Bytes_lt _ x (List.mem_of_mem_take hx)
      · rw [List.length_take]; omega
      · rw [List.length_take]; omega
    · intro ht
      have : (b64Encode (utf8Bytes (idString c1))).take 12 =
          (b64Encode (utf8Bytes (idString c2))).take 12 := by
        rw [b64Encode_take12 _ h1, b64Encode_take12 _ h2, ht]
      exact congrArg String.mk this

/-- C1 counterexample: two records with different `(provider, title, date)`
triples — both realistic RideRite records — receive the identical id,
because `"RideRite-"` already fills the 9 bytes that determine the
truncated encoding. -/
theorem c1_counterexample :
    generateId rawBasic = generateId rawAdvanced ∧
      (rawBasic.provider, rawBasic.title, rawBasic.date) ≠
        (rawAdvanced.provider, rawAdvanced.title, rawAdvanced.date) := by
  constructor
  · rfl
  · decide

/-- C1 witness: the amended theorem instantiated at concrete records. -/
theorem c1_witness :
    generateId rawBasic = generateId rawBasic ∧
      (generateId rawBasic).length = 12 ∧
      (generateId rawBasic = generateId rawAdvanced ↔
        (utf8Bytes (idString rawBasic)).take 9 = (utf8Bytes (idString rawAdvanced)).take 9) :=
  ⟨c1_generateId_deterministic_ninebyte.1 rawBasic rawBasic rfl rfl rfl,
    c1_generateId_deterministic_ninebyte.2.1 rawBasic (by decide),
    c1_generateId_deterministic_ninebyte.2.2 rawBasic rawAdvanced (by decide) (by decide)⟩

/-- C2 (code-bug evaluation): on the spec's own example
`"March 15, 2025"`, the cleaning step deletes the month name — producing
`" 15 2025"` — so date construction fails and `parseDate` returns null
instead of the documented `"2025-03-15"`; the ISO rendering path itself
works when the month survives cleaning, as the third conjunct shows. -/
theorem c2_march_example_returns_null :
    cleanDate "March 15, 2025" = " 15 2025" ∧
      parseDate (some "March 15, 2025") = none ∧
      parseDate (some "2025-03-15") = some "2025-03-15" :=
  ⟨rfl, rfl, rfl⟩

/-- C3: of the two same-named definitions of the save operation, method
resolution installs the second (elaborated) one; the active operation
falls back to the JSON save without credentials, probes the store first
and falls back on probe failure without posting, otherwise posts the
batches each followed by the 250 ms sleep and unconditionally appends the
JSON backup; and the shadowed first definition is observably different. -/
theorem c3_second_definition_shadows_first :
    lookupMethod "saveToAirtable" = some saveToAirtableV2 ∧
    saveToAirtable = saveToAirtableV2 ∧
    (∀ (probeOk : Bool) (cfg : AirtableConfig) (data : List CanonicalRecord),
      cfg.apiKey = none →
        saveToAirtable probeOk cfg data = Event.log :: saveToJSON data) ∧
    (∀ (cfg : AirtableConfig) (data : List CanonicalRecord) (k : String),
      cfg.apiKey = some k →
        saveToAirtable false cfg data =
          [Event.log, Event.log, Event.log, Event.log, Event.netGet, Event.log, Event.log] ++
            saveToJSON data) ∧
    (∀ (cfg : AirtableConfig) (data : List CanonicalRecord) (k : String),
      cfg.apiKey = some k →
        saveToAirtable true cfg data =
          [Event.log, Event.log, Event.log, Event.log, Event.netGet, Event.log, Event.log] ++
            ((chunks10 data).flatMap fun b =>
              [Event.log, Event.netPost b, Event.log, Event.sleep 250]) ++
            saveToJSON data) ∧
    saveToAirtableV1 true cfgKey [] ≠ saveToAirtableV2 true cfgKey [] := by
  have hact : saveToAirtable = saveToAirtableV2 := rfl
  refine ⟨rfl, hact, ?_, ?_, ?_, ?_⟩
  · intro probeOk cfg data h
    rw [hact]
    simp [saveToAirtableV2, h]
  · intro cfg data k h
    rw [hact]
    simp [saveToAirtableV2, h]
  · intro cfg data k h
    rw [hact]
    simp [saveToAirtableV2, h]
  · decide

/-- C3 witness: the active save operation evaluated at concrete inputs in
all three modes. -/
theorem c3_witness :
    saveToAirtable true cfgNone [] = Event.log :: saveToJSON [] ∧
      saveToAirtable false cfgKey data23 =
        [Event.log, Event.log, Event.log, Event.log, Event.netGet, Event.log, Event.log] ++
          saveToJSON data23 ∧
      saveToAirtable true cfgKey data23 =
        [Event.log, Event.log, Event.log, Event.log, Event.netGet, Event.log, Event.log] ++
          ((chunks10 data23).flatMap fun b =>
            [Event.log, Event.netPost b, Event.log, Event.sleep 250]) ++
          saveToJSON data23 :=
  ⟨c3_second_definition_shadows_first.2.2.1 true cfgNone [] rfl,
    c3_second_definition_shadows_first.2.2.2.1 cfgKey data23 "keySecret" rfl,
    c3_second_definition_shadows_first.2.2.2.2.1 cfgKey data23 "keySecret" rfl⟩

/-- C4 (amended): the aggregate is written by the extractor methods — each
appends its extracted records to the classes list it receives — while the
orchestration loop itself appends nothing: when every registered source
function leaves the aggregate unchanged, the loop returns it unchanged. -/
theorem c4_extractors_write_aggregate :
    (∀ (env : PageEnv) (classes : List RawRecord),
      (scrapeShopRideRite env classes).2 = classes ++ rideRiteRecords env) ∧
    (∀ (env : PageEnv) (url provider : String) (classes : List RawRecord),
      (scrapeMSIRegistration env url provider classes).2 =
        classes ++ msiRecords env url provider) ∧
    (∀ (sources : List RegisteredSource) (classes : List RawRecord),
      (∀ s ∈ sources, ∀ a, (s.fn a).1 = a) → scrapeAllLoop sources classes = classes) := by
  refine ⟨?_, ?_, ?_⟩
  · intro env classes
    rcases hb : rideRiteBody env with ⟨tr, r⟩
    rcases r with recs | e <;> simp [scrapeShopRideRite, rideRiteRecords, hb]
  · intro env url provider classes
    rcases hb : msiBody env url with ⟨tr, r⟩
    rcases r with its | e <;> simp [scrapeMSIRegistration, msiRecords, hb]
  · intro sources classes h
    induction sources generalizing classes with
    | nil => rfl
    | cons s ss ih =>
      simp only [scrapeAllLoop, List.foldl_cons] at *
      rw [h s (by simp)]
      exact ih classes fun t ht a => h t (List.mem_cons_of_mem _ ht) a

/-- C4 counterexample: invoking the RideRite extractor alone — no
orchestrator code — changes the aggregate from `[]` to a non-empty list,
so extractor code does mutate the aggregate. -/
theorem c4_counterexample :
    (scrapeShopRideRite envOneProduct []).2 ≠ [] := by decide

/-- C4 witness: the amended theorem instantiated at concrete inputs. -/
theorem c4_witness :
    (scrapeShopRideRite envOneProduct []).2 = [] ++ rideRiteRecords envOneProduct ∧
      scrapeAllLoop [] [] = [] :=
  ⟨c4_extractors_write_aggregate.1 envOneProduct [],
    c4_extractors_write_aggregate.2.2 [] [] (by simp)⟩

/-- The orchestration loop over abstract source outcomes appends exactly
the yielded record lists, in registration order. -/
theorem scrapeAllLoop_outcomes (regs : List (String × SourceOutcome))
    (classes : List RawRecord) :
    scrapeAllLoop (regs.map mkSource) classes =
      classes ++ (regs.filterMap fun p => yieldedRecords p.2).flatten := by
  induction regs generalizing classes with
  | nil => simp [scrapeAllLoop]
  | cons p ps ih =>
    rcases p with ⟨nm, out⟩
    cases out with
    | yields recs =>
      simp [scrapeAllLoop, mkSource, outcomeFn, yieldedRecords, List.foldl_cons] at ih ⊢
      rw [ih, List.append_assoc]
    | raises =>
      simp [scrapeAllLoop, mkSource, outcomeFn, yieldedRecords, List.foldl_cons] at ih ⊢
      rw [ih]

/-- C5: in a registry where some source raises, the run completes (the
loop is a total function) and the final aggregate is exactly the
concatenation of the records of the non-raising sources, in registration
order — raising sources contribute nothing. -/
theorem c5_failure_isolation (regs : List (String × SourceOutcome))
    (_h : ∃ p ∈ regs, p.2 = SourceOutcome.raises) :
    scrapeAllLoop (regs.map mkSource) [] =
      (regs.filterMap fun p => yieldedRecords p.2).flatten := by
  rw [scrapeAllLoop_outcomes regs []]
  simp

/-- C5 witness: three registered sources with the second raising — the
aggregate holds exactly the first and third sources' records. -/
theorem c5_witness :
    (∃ p ∈ regsThree, p.2 = SourceOutcome.raises) ∧
      scrapeAllLoop (regsThree.map mkSource) [] =
        (regsThree.filterMap fun p => yieldedRecords p.2).flatten ∧
      scrapeAllLoop (regsThree.map mkSource) [] = [rawBasic, rawAdvanced] :=
  ⟨by decide, c5_failure_isolation regsThree (by decide), by decide⟩

/-- C6: each extractor is a total function (no exception reaches the
caller), opens exactly one page and closes it as its final action on
every exit path, and contributes zero records whenever its body fails
(navigation timeout, wait timeout, or evaluation failure). -/
theorem c6_extractor_contract :
    (∀ (env : PageEnv) (classes : List RawRecord),
      ((scrapeShopRideRite env classes).1.countP isNewPageEv = 1 ∧
        (scrapeShopRideRite env classes).1.countP isClosePageEv = 1 ∧
        (scrapeShopRideRite env classes).1.getLast? = some Event.closePage) ∧
      (isErr (rideRiteBody env).2 = true → (scrapeShopRideRite env classes).2 = classes)) ∧
    (∀ (env : PageEnv) (url provider : String) (classes : List RawRecord),
      ((scrapeMSIRegistration env url provider classes).1.countP isNewPageEv = 1 ∧
        (scrapeMSIRegistration env url provider classes).1.countP isClosePageEv = 1 ∧
        (scrapeMSIRegistration env url provider classes).1.getLast? = some Event.closePage) ∧
      (isErr (msiBody env url).2 = true →
        (scrapeMSIRegistration env url provider classes).2 = classes)) := by
  constructor
  · intro env classes
    rcases env with ⟨nav, wait, prods, items⟩
    cases nav
    · simp [scrapeShopRideRite, rideRiteBody, isErr, List.countP_append, List.countP_cons,
        isNewPageEv, isClosePageEv, List.getLast?_concat]
    · cases prods with
      | none =>
        simp [scrapeShopRideRite, rideRiteBody, isErr, List.countP_append, List.countP_cons,
          isNewPageEv, isClosePageEv, List.getLast?_concat]
      | some ps =>
        simp [scrapeShopRideRite, rideRiteBody, isErr, List.countP_append, List.countP_cons,
          isNewPageEv, isClosePageEv, List.getLast?_concat]
  · intro env url provider classes
    rcases env with ⟨nav, wait, prods, items⟩
    cases nav
    · simp [scrapeMSIRegistration, msiBody, isErr, List.countP_append, List.countP_cons,
        isNewPageEv, isClosePageEv, List.getLast?_concat]
    · cases wait
      · simp [scrapeMSIRegistration, msiBody, isErr, List.countP_append, List.countP_cons,
          isNewPageEv, isClosePageEv, List.getLast?_concat]
      · cases items with
        | none =>
          simp [scrapeMSIRegistration, msiBody, isErr, List.countP_append, List.countP_cons,
            isNewPageEv, isClosePageEv, List.getLast?_concat]
        | some its =>
          simp [scrapeMSIRegistration, msiBody, isErr, List.countP_append, List.countP_cons,
            isNewPageEv, isClosePageEv, List.getLast?_concat]

/-- C6 witness: the contract instantiated at a navigation-failure
environment. -/
theorem c6_witness :
    (scrapeShopRideRite envFailNav []).1.countP isNewPageEv = 1 ∧
      (scrapeShopRideRite envFailNav []).1.countP isClosePageEv = 1 ∧
      (scrapeShopRideRite envFailNav []).1.getLast? = some Event.closePage ∧
      (scrapeShopRideRite envFailNav []).2 = [] ∧
      (scrapeMSIRegistration envFailNav "u" "p" []).2 = [] :=
  ⟨(c6_extractor_contract.1 envFailNav []).1.1,
    (c6_extractor_contract.1 envFailNav []).1.2.1,
    (c6_extractor_contract.1 envFailNav []).1.2.2,
    (c6_extractor_contract.1 envFailNav []).2 (by decide),
    (c6_extractor_contract.2 envFailNav "u" "p" []).2 (by decide)⟩

/-- C7: with active credentials, the insert step partitions the canonical
list into ceil(n/10) ordered batches whose concatenation equals the input,
each of size at most 10 and every batch but the last of size exactly 10,
and the active save's trace posts the batches sequentially, each `netPost`
followed by the 250 ms sleep, with the JSON backup afterwards. -/
theorem c7_insert_batching (cfg : AirtableConfig) (k : String)
    (data : List CanonicalRecord) (h : cfg.apiKey = some k) :
    (chunks10 data).length = (data.length + 9) / 10 ∧
    (chunks10 data).flatten = data ∧
    (∀ b ∈ chunks10 data, b.length ≤ 10) ∧
    (∀ i, ∀ hi : i < (chunks10 data).length,
      ((chunks10 data).get ⟨i, hi⟩).length = min 10 (data.length - 10 * i)) ∧
    (∀ i, ∀ hi : i + 1 < (chunks10 data).length,
      ((chunks10 data).get ⟨i, Nat.lt_of_succ_lt hi⟩).length = 10) ∧
    saveToAirtableV2 true cfg data =
      [Event.log, Event.log, Event.log, Event.log, Event.netGet, Event.log, Event.log] ++
        ((chunks10 data).flatMap fun b =>
          [Event.log, Event.netPost b, Event.log, Event.sleep 250]) ++
        saveToJSON data := by
  refine ⟨chunks10_length data, chunks10_flatten data, chunks10_mem_le data, ?_, ?_, ?_⟩
  · intro i hi
    have hg := chunks10_getElem? data i hi
    rw [List.getElem?_eq_getElem hi] at hg
    rw [List.get_eq_getElem, Option.some.inj hg, List.length_take, List.length_drop]
  · intro i hi
    have hlt := Nat.lt_of_succ_lt hi
    have hg := chunks10_getElem? data i hlt
    rw [List.getElem?_eq_getElem hlt] at hg
    rw [List.get_eq_getElem, Option.some.inj hg, List.length_take, List.length_drop]
    have hlen := chunks10_length data
    rw [hlen] at hi
    omega
  · simp [saveToAirtableV2, h]

/-- C7 witness: 23 records with active credentials produce exactly 3
batches of sizes 10, 10, 3. -/
theorem c7_witness :
    cfgKey.apiKey = some "keySecret" ∧
      (chunks10 data23).flatten = data23 ∧
      (chunks10 data23).map List.length = [10, 10, 3] :=
  ⟨rfl, (c7_insert_batching cfgKey "keySecret" data23 rfl).2.1, by decide⟩

/-- C8: with no API key configured, the sync performs zero network calls
and writes exactly one local snapshot, delegating directly to the JSON
save. -/
theorem c8_credential_absent_fallback (probeOk : Bool) (cfg : AirtableConfig)
    (data : List CanonicalRecord) (h : cfg.apiKey = none) :
    (saveToAirtableV2 probeOk cfg data).countP isNetEv = 0 ∧
      (saveToAirtableV2 probeOk cfg data).countP isSnapshotEv = 1 ∧
      saveToAirtableV2 probeOk cfg data = Event.log :: saveToJSON data := by
  have ht : saveToAirtableV2 probeOk cfg data = Event.log :: saveToJSON data := by
    simp [saveToAirtableV2, h]
  refine ⟨?_, ?_, ht⟩ <;>
    simp [ht, saveToJSON, List.countP_cons, isNetEv, isSnapshotEv]

/-- C8 witness: the fallback instantiated at a keyless configuration. -/
theorem c8_witness :
    (saveToAirtableV2 true cfgNone data23).countP isNetEv = 0 ∧
      (saveToAirtableV2 true cfgNone data23).countP isSnapshotEv = 1 ∧
      saveToAirtableV2 true cfgNone data23 = Event.log :: saveToJSON data23 :=
  c8_credential_absent_fallback true cfgNone data23 rfl

/-- C9: normalization is a total, length-preserving map — one canonical
record per raw record, with no error path — and every canonical field is
explicitly set: absent raw data becomes null (date, price) or the
documented sentinel (title, provider, location, type, link), with the
constant region and the normalization timestamp always present. -/
theorem c9_normalizer_total (now : String) (classes : List RawRecord) :
    (normalizeData now classes).length = classes.length ∧
    (∀ cls : RawRecord,
      (cls.title = none → (normalizeRecord now cls).title = "Motorcycle Safety Course") ∧
      (cls.provider = none → (normalizeRecord now cls).provider = "Unknown") ∧
      (cls.date = none → (normalizeRecord now cls).date = none) ∧
      (cls.time = none → (normalizeRecord now cls).time = "") ∧
      (cls.location = none → (normalizeRecord now cls).location = "Southern California") ∧
      (cls.price = none → (normalizeRecord now cls).price = none) ∧
      (cls.type = none → (normalizeRecord now cls).type = "Motorcycle Course") ∧
      (cls.link = none → (normalizeRecord now cls).link = "") ∧
      (normalizeRecord now cls).region = "Southern California" ∧
      (normalizeRecord now cls).lastUpdated = now) := by
  refine ⟨by simp [normalizeData], ?_⟩
  intro cls
  refine ⟨?_, ?_, ?_, ?_, ?_, ?_, ?_, ?_, rfl, rfl⟩ <;>
    (intro h; simp [normalizeRecord, jsOr, parseDate, parsePrice, h])

/-- C9 witness: normalization of the fully-absent raw record. -/
theorem c9_witness :
    (normalizeData "T0" [emptyRaw]).length = [emptyRaw].length ∧
      (normalizeRecord "T0" emptyRaw).title = "Motorcycle Safety Course" ∧
      (normalizeRecord "T0" emptyRaw).provider = "Unknown" ∧
      (normalizeRecord "T0" emptyRaw).date = none ∧
      (normalizeRecord "T0" emptyRaw).price = none ∧
      (normalizeRecord "T0" emptyRaw).region = "Southern California" :=
  ⟨(c9_normalizer_total "T0" [emptyRaw]).1,
    ((c9_normalizer_total "T0" [emptyRaw]).2 emptyRaw).1 rfl,
    ((c9_normalizer_total "T0" [emptyRaw]).2 emptyRaw).2.1 rfl,
    ((c9_normalizer_total "T0" [emptyRaw]).2 emptyRaw).2.2.1 rfl,
    ((c9_normalizer_total "T0" [emptyRaw]).2 emptyRaw).2.2.2.2.2.1 rfl,
    ((c9_normalizer_total "T0" [emptyRaw]).2 emptyRaw).2.2.2.2.2.2.2.2.1⟩

/-- C10: the record id is computed from the raw, pre-default field values
— absent fields interpolate as the literal `"undefined"` — so a record
with an absent provider gets a different id than one whose provider is
explicitly `"Unknown"`, and the id is derived from the raw date text: two
records whose raw date texts parse to the same ISO date still receive
different ids. -/
theorem c10_id_from_raw_fields :
    (∀ (now : String) (cls : RawRecord), (normalizeRecord now cls).id = generateId cls) ∧
    jsToString none = "undefined" ∧
    (∀ cls : RawRecord, idString cls =
      jsToString cls.provider ++ "-" ++ jsToString cls.title ++ "-" ++ jsToString cls.date) ∧
    generateId rawNoProvider ≠ generateId rawUnknownProvider ∧
    parseDate rawIsoDate.date = parseDate rawSlashDate.date ∧
    generateId rawIsoDate ≠ generateId rawSlashDate := by
  refine ⟨fun now cls => rfl, rfl, fun cls => rfl, by decide, by decide, by decide⟩

end Scraper
